import Mathlib

/-!
Verification of the appointment-scheduling data model and engine contracts
of the think-thread repository (Django app `backend/api`).

The schema lives in `src/backend/api/models.py`; the HTTP layer in
`src/backend/api/views.py` and `src/backend/api/urls.py`.  Times and
datetimes are embedded as natural numbers (minutes since midnight for
`TimeField`, minutes since an epoch for `DateTimeField`); ids as naturals;
Django `PositiveSmallIntegerField` columns as integers constrained to
0..32767 by the field's validation.
-/

namespace ThinkThread

/-- Doctor.Status from models.py: {active, inactive, on_leave}. -/
inductive DoctorStatus where
  | active
  | inactive
  | on_leave
deriving DecidableEq, Repr

/-- The Doctor model (models.py, class Doctor), restricted to the fields the
claims touch: identity and status. -/
structure Doctor where
  id : Nat
  status : DoctorStatus
deriving DecidableEq, Repr

/-- DoctorAvailability (models.py lines 106-125): a recurring weekly
bookable window for a doctor.  `weekday` and `capacity` are
PositiveSmallIntegerField columns (range 0..32767, capacity default 1);
`start_time` and `end_time` are TimeField columns. -/
structure DoctorAvailability where
  id : Nat
  doctor : Nat
  weekday : Int
  start_time : Nat
  end_time : Nat
  capacity : Int
  is_active : Bool
deriving DecidableEq, Repr

/-- Field-level validation of a DoctorAvailability row, as Django enforces
it: PositiveSmallIntegerField admits exactly the integers 0..32767 (note:
zero is admitted).  models.py declares no constraint relating `start_time`
and `end_time` and no upper bound of 6 on `weekday`. -/
def DoctorAvailability.fieldsValid (r : DoctorAvailability) : Bool :=
  0 ≤ r.weekday && r.weekday ≤ 32767 && 0 ≤ r.capacity && r.capacity ≤ 32767

/-- The unique_together key of DoctorAvailability.Meta (models.py line 121):
("doctor", "weekday", "start_time", "end_time"). -/
def DoctorAvailability.key (r : DoctorAvailability) : Nat × Int × Nat × Nat :=
  (r.doctor, r.weekday, r.start_time, r.end_time)

/-- Insertion of a DoctorAvailability row into the table: succeeds iff the
fields validate and no existing row shares the unique_together key. -/
def insertRule (table : List DoctorAvailability) (r : DoctorAvailability) :
    Option (List DoctorAvailability) :=
  if r.fieldsValid && !(table.any (fun s => s.key == r.key)) then
    some (r :: table)
  else
    none

/-- The DoctorAvailability table states reachable from empty by insertions. -/
inductive RulesReachable : List DoctorAvailability → Prop where
  | empty : RulesReachable []
  | insert {table table' : List DoctorAvailability} {r : DoctorAvailability} :
      RulesReachable table → insertRule table r = some table' →
      RulesReachable table'

/-- No two distinct rows of the table share the unique_together key. -/
def rulesKeyDistinct (table : List DoctorAvailability) : Prop :=
  table.Pairwise (fun a b => a.key ≠ b.key)

lemma insertRule_some {table table' : List DoctorAvailability}
    {r : DoctorAvailability} (h : insertRule table r = some table') :
    table' = r :: table ∧ r.fieldsValid = true ∧
      table.any (fun s => s.key == r.key) = false := by
  unfold insertRule at h
  by_cases hc : (r.fieldsValid && !(table.any (fun s => s.key == r.key))) = true
  · rw [if_pos hc] at h
    simp only [Bool.and_eq_true, Bool.not_eq_true'] at hc
    exact ⟨(Option.some.injEq _ _ ▸ h).symm, hc.1, hc.2⟩
  · rw [if_neg hc] at h
    exact absurd h (Option.some_ne_none _).symm

lemma rulesReachable_fieldsValid {table : List DoctorAvailability}
    (h : RulesReachable table) :
    ∀ r ∈ table, r.fieldsValid = true := by
  induction h with
  | empty => intro r hr; exact absurd hr (List.not_mem_nil r)
  | insert _ hins ih =>
    obtain ⟨rfl, hvalid, _⟩ := insertRule_some hins
    intro x hx
    rcases List.mem_cons.mp hx with rfl | hmem
    · exact hvalid
    · exact ih x hmem

lemma rulesReachable_keyDistinct {table : List DoctorAvailability}
    (h : RulesReachable table) : rulesKeyDistinct table := by
  induction h with
  | empty => exact List.Pairwise.nil
  | insert _ hins ih =>
    obtain ⟨rfl, _, hfresh⟩ := insertRule_some hins
    refine List.Pairwise.cons ?_ ih
    intro s hs
    have := List.any_eq_false.mp hfresh s hs
    intro hkey
    exact this (beq_iff_eq.mpr hkey.symm)

/-- Appointment.Status from models.py: {pending, confirmed, cancelled,
completed, no_show}. -/
inductive ApptStatus where
  | pending
  | confirmed
  | cancelled
  | completed
  | no_show
deriving DecidableEq, Repr

/-- Appointment.Source from models.py: {chatbot, manual, call_center,
portal}. -/
inductive ApptSource where
  | chatbot
  | manual
  | call_center
  | portal
deriving DecidableEq, Repr

/-- The Appointment model (models.py lines 128-175), restricted to the
fields the claims touch.  `cancelled_at` is the nullable DateTimeField set
on cancellation. -/
structure Appointment where
  id : Nat
  hospital : Nat
  patient : Nat
  doctor : Nat
  start_at : Nat
  end_at : Nat
  status : ApptStatus
  source : ApptSource
  cancelled_at : Option Nat
deriving DecidableEq, Repr

/-- The CheckConstraint `appointment_end_after_start` of Appointment.Meta
(models.py lines 166-171): end_at > start_at. -/
def Appointment.checkConstraint (a : Appointment) : Bool :=
  a.start_at < a.end_at

/-- Insertion of an Appointment row: the database admits the row iff the
check constraint holds and the primary key is fresh. -/
def insertAppt (table : List Appointment) (a : Appointment) :
    Option (List Appointment) :=
  if a.checkConstraint && !(table.any (fun b => b.id == a.id)) then
    some (a :: table)
  else
    none

/-- Update of the Appointment row with primary key `i` to the new row
values `a` (same key): the database admits the update iff the check
constraint holds of the updated row. -/
def updateAppt (table : List Appointment) (i : Nat) (a : Appointment) :
    Option (List Appointment) :=
  if a.checkConstraint && a.id == i then
    some (table.map (fun b => if b.id == i then a else b))
  else
    none

/-- The Appointment table states reachable from empty by inserts and
updates. -/
inductive ApptsReachable : List Appointment → Prop where
  | empty : ApptsReachable []
  | insert {table table' : List Appointment} {a : Appointment} :
      ApptsReachable table → insertAppt table a = some table' →
      ApptsReachable table'
  | update {table table' : List Appointment} {i : Nat} {a : Appointment} :
      ApptsReachable table → updateAppt table i a = some table' →
      ApptsReachable table'

lemma insertAppt_some {table table' : List Appointment} {a : Appointment}
    (h : insertAppt table a = some table') :
    table' = a :: table ∧ a.checkConstraint = true := by
  unfold insertAppt at h
  by_cases hc : (a.checkConstraint && !(table.any (fun b => b.id == a.id))) = true
  · rw [if_pos hc] at h
    simp only [Bool.and_eq_true] at hc
    exact ⟨(Option.some.injEq _ _ ▸ h).symm, hc.1⟩
  · rw [if_neg hc] at h
    exact absurd h (Option.some_ne_none _).symm

lemma updateAppt_some {table table' : List Appointment} {i : Nat}
    {a : Appointment} (h : updateAppt table i a = some table') :
    table' = table.map (fun b => if b.id == i then a else b) ∧
      a.checkConstraint = true := by
  unfold updateAppt at h
  by_cases hc : (a.checkConstraint && a.id == i) = true
  · rw [if_pos hc] at h
    simp only [Bool.and_eq_true] at hc
    exact ⟨(Option.some.injEq _ _ ▸ h).symm, hc.1⟩
  · rw [if_neg hc] at h
    exact absurd h (Option.some_ne_none _).symm

lemma apptsReachable_checkConstraint {table : List Appointment}
    (h : ApptsReachable table) :
    ∀ a ∈ table, a.checkConstraint = true := by
  induction h with
  | empty => intro a ha; exact absurd ha (List.not_mem_nil a)
  | insert _ hins ih =>
    obtain ⟨rfl, hok⟩ := insertAppt_some hins
    intro x hx
    rcases List.mem_cons.mp hx with rfl | hmem
    · exact hok
    · exact ih x hmem
  | @update t t' i a _ hupd ih =>
    obtain ⟨rfl, hok⟩ := updateAppt_some hupd
    intro x hx
    obtain ⟨b, hb, hbx⟩ := List.mem_map.mp hx
    by_cases hid : (b.id == i) = true
    · rw [if_pos hid] at hbx; exact hbx ▸ hok
    · rw [if_neg hid] at hbx; exact hbx ▸ ih b hb

/-- The BookingRequest model (models.py lines 392-409): the conversational
booking draft row, one per chat session. -/
structure BookingRequest where
  session : Nat
  department : Option Nat
  doctor : Option Nat
  preferred_date : Option Nat
  preferred_time : Option Nat
  is_ready : Bool
deriving DecidableEq, Repr

/-- The persistent state visible to the HTTP layer: the three tables the
claims are about. -/
structure WorldState where
  rules : List DoctorAvailability
  appointments : List Appointment
  bookingRequests : List BookingRequest
deriving DecidableEq, Repr

/-- A Django HttpRequest, restricted to what the stub views could read. -/
structure HttpRequest where
  method : String
  path : String
  body : String
deriving DecidableEq, Repr

/-- A Django HttpResponse carrying its body text. -/
structure HttpResponse where
  body : String
deriving DecidableEq, Repr

/-- views.py line 19-20: `appointment_book(request)` returns
HttpResponse("Book an appointment").  The view body touches no model, so
the state threads through unchanged. -/
def appointment_book (request : HttpRequest) (st : WorldState) :
    HttpResponse × WorldState :=
  (HttpResponse.mk "Book an appointment", st)

/-- views.py line 16-17: `appointment_list(request)`. -/
def appointment_list (request : HttpRequest) (st : WorldState) :
    HttpResponse × WorldState :=
  (HttpResponse.mk "List of appointments", st)

/-- views.py line 7-8: `patient_list(request)`. -/
def patient_list (request : HttpRequest) (st : WorldState) :
    HttpResponse × WorldState :=
  (HttpResponse.mk "List of patients", st)

/-- urls.py urlpatterns, restricted to the request-only views: the route
path paired with its view function (the dashboard and the two
`<int:id>` detail routes have different handler shapes and are omitted). -/
def urlpatterns :
    List (String × (HttpRequest → WorldState → HttpResponse × WorldState)) :=
  [("patients/", patient_list),
   ("appointments/", appointment_list),
   ("appointments/book/", appointment_book)]

/-- A DoctorAvailability row with capacity 0: every field passes the
Django field validation (PositiveSmallIntegerField admits 0).  Fields in
order: id, doctor, weekday, start_time, end_time, capacity, is_active. -/
def ruleCapZero : DoctorAvailability :=
  ⟨1, 1, 0, 540, 600, 0, true⟩

/-- A DoctorAvailability row whose window is inverted (start 10:00,
end 09:00): models.py declares no constraint relating start_time and
end_time, so the row is storable. -/
def badWindowRule : DoctorAvailability :=
  ⟨2, 1, 0, 600, 540, 1, true⟩

/-- Monday 09:00-12:00 for doctor 1. -/
def overlapRuleA : DoctorAvailability :=
  ⟨3, 1, 0, 540, 720, 2, true⟩

/-- Monday 10:00-11:00 for doctor 1: overlaps overlapRuleA but has a
distinct (doctor, weekday, start_time, end_time) key. -/
def overlapRuleB : DoctorAvailability :=
  ⟨4, 1, 0, 600, 660, 1, true⟩

/-- An Appointment row as created (status pending).  Fields in order: id,
hospital, patient, doctor, start_at, end_at, status, source,
cancelled_at. -/
def apptPending : Appointment :=
  ⟨1, 1, 1, 1, 540, 600, ApptStatus.pending, ApptSource.chatbot, none⟩

/-- The same Appointment row after a status update to confirmed. -/
def apptConfirmed : Appointment :=
  ⟨1, 1, 1, 1, 540, 600, ApptStatus.confirmed, ApptSource.chatbot, none⟩

/-- An appointment status counts against capacity iff pending or confirmed
(spec section 3: only pending/confirmed count against capacity). -/
def isActive (st : ApptStatus) : Bool :=
  st == ApptStatus.pending || st == ApptStatus.confirmed

/-- Number of capacity-relevant entries in a (id, status) list. -/
def countActive : List (Nat × ApptStatus) → Nat
  | [] => 0
  | p :: rest => (if isActive p.2 then 1 else 0) + countActive rest

/-- Status of the appointment with the given id, if present. -/
def findStatus : List (Nat × ApptStatus) → Nat → Option ApptStatus
  | [], _ => none
  | p :: rest, i => if p.1 == i then some p.2 else findStatus rest i

/-- Replace the status of the appointment with the given id. -/
def setStatus : List (Nat × ApptStatus) → Nat → ApptStatus → List (Nat × ApptStatus)
  | [], _, _ => []
  | p :: rest, i, st => if p.1 == i then (p.1, st) :: rest else p :: setStatus rest i st

/-- Modelled from the spec: the repository implements no Capacity Ledger or
Scheduler (models.py only declares the schema; views.py is stubs), so the
engine state for one (doctor, start_at, end_at) slot key is modelled from
spec sections 4.2 and 4.5: the appointment records for the key and the
ledger's running count of active bookings. -/
structure SlotState where
  appts : List (Nat × ApptStatus)
  ledger : Int
deriving DecidableEq, Repr

/-- Modelled from the spec: outcome of Scheduler.book (spec section 4.5),
which the repository does not implement. -/
inductive BookResult where
  | booked (id : Nat)
  | slotFull
deriving DecidableEq, Repr

/-- Modelled from the spec: outcome of Scheduler.cancel (spec sections 4.5
and 8), which the repository does not implement. -/
inductive CancelResult where
  | cancelled
  | alreadyCancelled
  | notCancellable
  | notFound
deriving DecidableEq, Repr

/-- Modelled from the spec: Scheduler.book for a slot of the given
capacity (spec sections 4.2 and 4.5), which the repository does not
implement.  try_reserve semantics: increment the ledger iff count is below
capacity and create a pending appointment; on capacity failure return
SlotFullError without mutating anything. -/
def Scheduler.book (capacity : Nat) (s : SlotState) (newId : Nat) :
    BookResult × SlotState :=
  if s.ledger < (capacity : Int) then
    (BookResult.booked newId,
     ⟨(newId, ApptStatus.pending) :: s.appts, s.ledger + 1⟩)
  else
    (BookResult.slotFull, s)

/-- Modelled from the spec: confirmation of a pending appointment (spec
section 3 status set), which the repository does not implement; it does
not change the active count, so the ledger is untouched. -/
def Scheduler.confirm (s : SlotState) (i : Nat) : SlotState :=
  match findStatus s.appts i with
  | some ApptStatus.pending => ⟨setStatus s.appts i ApptStatus.confirmed, s.ledger⟩
  | _ => s

/-- Modelled from the spec: Scheduler.cancel (spec sections 4.5 and 8),
which the repository does not implement.  Transitions an active
appointment to cancelled and releases the ledger; a second cancel reports
an already-cancelled condition and releases nothing. -/
def Scheduler.cancel (s : SlotState) (i : Nat) : CancelResult × SlotState :=
  match findStatus s.appts i with
  | none => (CancelResult.notFound, s)
  | some st =>
    if st == ApptStatus.cancelled then
      (CancelResult.alreadyCancelled, s)
    else if isActive st then
      (CancelResult.cancelled, ⟨setStatus s.appts i ApptStatus.cancelled, s.ledger - 1⟩)
    else
      (CancelResult.notCancellable, s)

/-- The slot states reachable from the empty slot by booking,
confirmation and cancellation. -/
inductive SlotReachable (capacity : Nat) : SlotState → Prop where
  | empty : SlotReachable capacity ⟨[], 0⟩
  | book {s s' : SlotState} {i : Nat} : SlotReachable capacity s →
      (Scheduler.book capacity s i).2 = s' → SlotReachable capacity s'
  | confirm {s s' : SlotState} {i : Nat} : SlotReachable capacity s →
      Scheduler.confirm s i = s' → SlotReachable capacity s'
  | cancel {s s' : SlotState} {i : Nat} : SlotReachable capacity s →
      (Scheduler.cancel s i).2 = s' → SlotReachable capacity s'

lemma findStatus_setStatus {l : List (Nat × ApptStatus)} {i : Nat}
    (st2 : ApptStatus) (h : (findStatus l i).isSome = true) :
    findStatus (setStatus l i st2) i = some st2 := by
  induction l with
  | nil => simp [findStatus] at h
  | cons p rest ih =>
    by_cases hp : (p.1 == i) = true
    · simp [setStatus, findStatus, hp]
    · simp only [findStatus, if_neg hp] at h
      simp [setStatus, findStatus, hp, ih h]

lemma countActive_setStatus {l : List (Nat × ApptStatus)} {i : Nat}
    {st : ApptStatus} (st2 : ApptStatus) (h : findStatus l i = some st) :
    countActive (setStatus l i st2) + (if isActive st then 1 else 0) =
      countActive l + (if isActive st2 then 1 else 0) := by
  induction l with
  | nil => simp [findStatus] at h
  | cons p rest ih =>
    by_cases hp : (p.1 == i) = true
    · simp only [findStatus, if_pos hp, Option.some.injEq] at h
      subst h
      simp only [setStatus, if_pos hp, countActive]
      cases hA : isActive st2 <;> cases hB : isActive p.2 <;>
        simp [hA, hB] <;> omega
    · simp only [findStatus, if_neg hp] at h
      simp only [setStatus, if_neg hp, countActive]
      have := ih h
      omega

lemma slotReachable_invariant {capacity : Nat} {s : SlotState}
    (h : SlotReachable capacity s) :
    s.ledger = (countActive s.appts : Int) ∧ s.ledger ≤ (capacity : Int) := by
  induction h with
  | empty => simp [countActive]
  | @book t t' i hr heq ih =>
    subst heq
    obtain ⟨ih1, ih2⟩ := ih
    unfold Scheduler.book
    by_cases hlt : t.ledger < (capacity : Int)
    · rw [if_pos hlt]
      simp only [countActive, isActive, beq_self_eq_true, Bool.true_or,
        if_true]
      constructor
      · push_cast; omega
      · omega
    · rw [if_neg hlt]; exact ⟨ih1, ih2⟩
  | @confirm t t' i hr heq ih =>
    subst heq
    obtain ⟨ih1, ih2⟩ := ih
    unfold Scheduler.confirm
    split
    · rename_i hfind
      have hcnt := countActive_setStatus ApptStatus.confirmed hfind
      have h1 : isActive ApptStatus.pending = true := rfl
      have h2 : isActive ApptStatus.confirmed = true := rfl
      rw [h1, h2] at hcnt
      simp only [if_true] at hcnt
      refine ⟨?_, ih2⟩
      show t.ledger = (countActive (setStatus t.appts i ApptStatus.confirmed) : Int)
      omega
    · exact ⟨ih1, ih2⟩
  | @cancel t t' i hr heq ih =>
    subst heq
    obtain ⟨ih1, ih2⟩ := ih
    unfold Scheduler.cancel
    split
    · exact ⟨ih1, ih2⟩
    · rename_i st hfind
      by_cases hcan : (st == ApptStatus.cancelled) = true
      · rw [if_pos hcan]; exact ⟨ih1, ih2⟩
      · rw [if_neg hcan]
        by_cases hact : isActive st = true
        · rw [if_pos hact]
          have hcnt := countActive_setStatus ApptStatus.cancelled hfind
          rw [hact] at hcnt
          have hinact : isActive ApptStatus.cancelled = false := rfl
          rw [hinact] at hcnt
          simp at hcnt
          refine ⟨?_, ?_⟩
          · show t.ledger - 1 = (countActive (setStatus t.appts i
              ApptStatus.cancelled) : Int)
            omega
          · show t.ledger - 1 ≤ (capacity : Int)
            omega
        · rw [if_neg hact]; exact ⟨ih1, ih2⟩

lemma cancel_eq_notFound {s : SlotState} {i : Nat}
    (h : findStatus s.appts i = none) :
    Scheduler.cancel s i = (CancelResult.notFound, s) := by
  unfold Scheduler.cancel
  rw [h]

lemma cancel_eq_already {s : SlotState} {i : Nat}
    (h : findStatus s.appts i = some ApptStatus.cancelled) :
    Scheduler.cancel s i = (CancelResult.alreadyCancelled, s) := by
  unfold Scheduler.cancel
  rw [h]
  simp

lemma cancel_eq_active {s : SlotState} {i : Nat} {st : ApptStatus}
    (h : findStatus s.appts i = some st) (ha : isActive st = true) :
    Scheduler.cancel s i =
      (CancelResult.cancelled,
       ⟨setStatus s.appts i ApptStatus.cancelled, s.ledger - 1⟩) := by
  unfold Scheduler.cancel
  rw [h]
  cases st with
  | pending => rfl
  | confirmed => rfl
  | cancelled => simp [isActive] at ha
  | completed => simp [isActive] at ha
  | no_show => simp [isActive] at ha

lemma cancel_eq_inert {s : SlotState} {i : Nat} {st : ApptStatus}
    (h : findStatus s.appts i = some st)
    (hc : (st == ApptStatus.cancelled) = false) (ha : isActive st = false) :
    Scheduler.cancel s i = (CancelResult.notCancellable, s) := by
  unfold Scheduler.cancel
  rw [h]
  simp [hc, ha]

/-- Modelled from the spec: the Booking Draft State Machine states (spec
section 4.4), which the repository does not implement (models.py's
BookingRequest only stores the slot fields and is_ready; no transition
code exists). -/
inductive DraftState where
  | collecting
  | ready
  | confirmed
  | abandoned
deriving DecidableEq, Repr

/-- Modelled from the spec: the events the Booking Draft State Machine
consumes (spec section 4.4).  `update_slot` carries whether the recomputed
is_ready check passes; `confirm` carries whether Scheduler.book
succeeded. -/
inductive DraftEvent where
  | update_slot (ready_after : Bool)
  | confirm (book_ok : Bool)
  | abandon
deriving DecidableEq, Repr

/-- Modelled from the spec: rejection outcomes of draft transitions (spec
section 4.4: no transition is permitted out of confirmed or abandoned; a
confirm before ready is rejected). -/
inductive DraftError where
  | terminalState
  | notReady
deriving DecidableEq, Repr

/-- Modelled from the spec: the transition function of the Booking Draft
State Machine (spec section 4.4), which the repository does not
implement. -/
def draftStep : DraftState → DraftEvent → Except DraftError DraftState
  | DraftState.collecting, DraftEvent.update_slot r =>
      Except.ok (if r then DraftState.ready else DraftState.collecting)
  | DraftState.ready, DraftEvent.update_slot r =>
      Except.ok (if r then DraftState.ready else DraftState.collecting)
  | DraftState.collecting, DraftEvent.confirm _ =>
      Except.error DraftError.notReady
  | DraftState.ready, DraftEvent.confirm ok =>
      Except.ok (if ok then DraftState.confirmed else DraftState.collecting)
  | DraftState.collecting, DraftEvent.abandon =>
      Except.ok DraftState.abandoned
  | DraftState.ready, DraftEvent.abandon =>
      Except.ok DraftState.abandoned
  | DraftState.confirmed, _ => Except.error DraftError.terminalState
  | DraftState.abandoned, _ => Except.error DraftError.terminalState

/-- Modelled from the spec: the Availability Index error taxonomy (spec
sections 4.1 and 7), which the repository does not implement. -/
inductive AvailError where
  | NotFoundError
  | InvalidRangeError
deriving DecidableEq, Repr

/-- A derived TimeSlot (spec section 3): a concrete (doctor, day,
start_at, end_at) instance carrying the rule's capacity; not persisted. -/
structure TimeSlot where
  doctor : Nat
  day : Nat
  start_at : Nat
  end_at : Nat
  capacity : Int
deriving DecidableEq, Repr

/-- Slots a doctor offers on one calendar day (days since an epoch Monday,
so the weekday is day % 7): one TimeSlot per active matching rule. -/
def slotsForDay (rules : List DoctorAvailability) (doctor_id day : Nat) :
    List TimeSlot :=
  (rules.filter
    (fun r => r.doctor == doctor_id && r.is_active &&
      r.weekday == ((day % 7 : Nat) : Int))).map
    (fun r => ⟨doctor_id, day, r.start_time, r.end_time, r.capacity⟩)

/-- Modelled from the spec: the Availability Index query (spec section
4.1), which the repository does not implement.  Unknown doctor_id fails
with NotFoundError; a range whose start is after its end fails with
InvalidRangeError; a non-active doctor yields the empty sequence. -/
def availability (doctors : List Doctor) (rules : List DoctorAvailability)
    (doctor_id : Nat) (range_start range_end : Nat) :
    Except AvailError (List TimeSlot) :=
  match doctors.find? (fun d => d.id == doctor_id) with
  | none => Except.error AvailError.NotFoundError
  | some d =>
    if range_end < range_start then
      Except.error AvailError.InvalidRangeError
    else if d.status == DoctorStatus.active then
      Except.ok
        (((List.range (range_end + 1 - range_start)).map
          (fun k => range_start + k)).flatMap
          (fun day => slotsForDay rules doctor_id day))
    else
      Except.ok []

/-- Claim C6 counterexample: a DoctorAvailability row with capacity 0 is
storable — PositiveSmallIntegerField admits zero, so the table state
[ruleCapZero] is reachable although ruleCapZero.capacity < 1, refuting
the claim that every stored rule has capacity at least 1. -/
theorem capacity_ge_one_counterexample :
    RulesReachable [ruleCapZero] ∧ ruleCapZero.capacity < 1 :=
  ⟨@RulesReachable.insert [] [ruleCapZero] ruleCapZero RulesReachable.empty
    (by decide), by decide⟩

/-- Claim C6 amended: every AvailabilityRule stored by the system has
capacity between 0 and 32767 (the field defaults to 1, but zero is
storable). -/
theorem capacity_within_field_bounds (table : List DoctorAvailability)
    (h : RulesReachable table) (r : DoctorAvailability) (hr : r ∈ table) :
    0 ≤ r.capacity ∧ r.capacity ≤ 32767 := by
  have hv := rulesReachable_fieldsValid h r hr
  unfold DoctorAvailability.fieldsValid at hv
  simp only [Bool.and_eq_true, decide_eq_true_eq] at hv
  exact ⟨hv.1.2, hv.2⟩

/-- Witness for the amended C6 at the concrete reachable table
[ruleCapZero]. -/
theorem capacity_within_field_bounds_witness :
    0 ≤ ruleCapZero.capacity ∧ ruleCapZero.capacity ≤ 32767 :=
  capacity_within_field_bounds [ruleCapZero]
    (@RulesReachable.insert [] [ruleCapZero] ruleCapZero RulesReachable.empty
      (by decide))
    ruleCapZero (by decide)

/-- Claim C7 (code bug): models.py declares no constraint relating
start_time and end_time of a DoctorAvailability, so a rule whose window is
inverted (start 10:00, end 09:00) is stored successfully, contradicting
the documented invariant start_time < end_time; the analogous Appointment
constraint appointment_end_after_start does exist, so the omission is a
slip. -/
theorem availability_window_order_unenforced :
    RulesReachable [badWindowRule] ∧
      ¬ (badWindowRule.start_time < badWindowRule.end_time) :=
  ⟨@RulesReachable.insert [] [badWindowRule] badWindowRule
    RulesReachable.empty (by decide), by decide⟩

/-- Claim C8: every Appointment stored by the system satisfies
end_at > start_at, and this holds after every insert and update — the
CheckConstraint appointment_end_after_start is enforced on both
operations. -/
theorem appointment_end_after_start_invariant (table : List Appointment)
    (h : ApptsReachable table) (a : Appointment) (ha : a ∈ table) :
    a.start_at < a.end_at := by
  have hc := apptsReachable_checkConstraint h a ha
  unfold Appointment.checkConstraint at hc
  exact of_decide_eq_true hc

/-- Witness for C8 at a table built by one insert and one update. -/
theorem appointment_end_after_start_invariant_witness :
    apptConfirmed.start_at < apptConfirmed.end_at :=
  appointment_end_after_start_invariant [apptConfirmed]
    (@ApptsReachable.update [apptPending] [apptConfirmed] 1 apptConfirmed
      (@ApptsReachable.insert [] [apptPending] apptPending
        ApptsReachable.empty (by decide))
      (by decide))
    apptConfirmed (by decide)

/-- Claim C9: the appointment_book endpoint returns the constant body
"Book an appointment", leaves every table unchanged, and its response is
independent of the request. -/
theorem appointment_book_constant_response (request other : HttpRequest)
    (st : WorldState) :
    appointment_book request st =
        (HttpResponse.mk "Book an appointment", st) ∧
      (appointment_book request st).1 = (appointment_book other st).1 :=
  ⟨rfl, rfl⟩

/-- Claim C10: in every reachable DoctorAvailability table no two rows
share the (doctor, weekday, start_time, end_time) key, while two distinct
overlapping windows for the same doctor and weekday are storable
(overlapRuleA 09:00-12:00 and overlapRuleB 10:00-11:00, both Monday,
doctor 1). -/
theorem availability_rule_key_unique (table : List DoctorAvailability)
    (h : RulesReachable table) :
    rulesKeyDistinct table ∧ RulesReachable [overlapRuleB, overlapRuleA] :=
  ⟨rulesReachable_keyDistinct h,
   @RulesReachable.insert [overlapRuleA] [overlapRuleB, overlapRuleA]
     overlapRuleB
     (@RulesReachable.insert [] [overlapRuleA] overlapRuleA
       RulesReachable.empty (by decide))
     (by decide)⟩

/-- Witness for C10 at the table holding both overlapping rules. -/
theorem availability_rule_key_unique_witness :
    rulesKeyDistinct [overlapRuleB, overlapRuleA] ∧
      RulesReachable [overlapRuleB, overlapRuleA] :=
  availability_rule_key_unique [overlapRuleB, overlapRuleA]
    (@RulesReachable.insert [overlapRuleA] [overlapRuleB, overlapRuleA]
      overlapRuleB
      (@RulesReachable.insert [] [overlapRuleA] overlapRuleA
        RulesReachable.empty (by decide))
      (by decide))

/-- Claim C1: in every slot state reachable by booking, confirmation and
cancellation for a key of capacity C, the number of pending-or-confirmed
appointments never exceeds C, and the ledger count equals it and never
goes negative. -/
theorem capacity_never_exceeded (capacity : Nat) (s : SlotState)
    (h : SlotReachable capacity s) :
    0 ≤ s.ledger ∧ s.ledger = (countActive s.appts : Int) ∧
      countActive s.appts ≤ capacity := by
  obtain ⟨h1, h2⟩ := slotReachable_invariant h
  refine ⟨?_, h1, ?_⟩ <;> omega

/-- A slot state for a capacity-2 key after two bookings and one
cancellation. -/
def slotDemo : SlotState :=
  ⟨[(2, ApptStatus.pending), (1, ApptStatus.cancelled)], 1⟩

/-- Witness for C1 at the concrete reachable state slotDemo. -/
theorem capacity_never_exceeded_witness :
    0 ≤ slotDemo.ledger ∧
      slotDemo.ledger = (countActive slotDemo.appts : Int) ∧
      countActive slotDemo.appts ≤ 2 :=
  capacity_never_exceeded 2 slotDemo
    (@SlotReachable.cancel 2
      ⟨[(2, ApptStatus.pending), (1, ApptStatus.pending)], 2⟩ slotDemo 1
      (@SlotReachable.book 2 ⟨[(1, ApptStatus.pending)], 1⟩
        ⟨[(2, ApptStatus.pending), (1, ApptStatus.pending)], 2⟩ 2
        (@SlotReachable.book 2 ⟨[], 0⟩ ⟨[(1, ApptStatus.pending)], 1⟩ 1
          SlotReachable.empty (by decide))
        (by decide))
      (by decide))

/-- Claim C2: confirmed and abandoned are terminal — every permitted
transition originates from a non-terminal state, a draft lands in
confirmed only from ready, and update_slot on a confirmed draft is
rejected. -/
theorem draft_terminal (s s2 : DraftState) (e : DraftEvent) (r : Bool)
    (h : draftStep s e = Except.ok s2) :
    s ≠ DraftState.confirmed ∧ s ≠ DraftState.abandoned ∧
      (s2 = DraftState.confirmed → s = DraftState.ready) ∧
      draftStep DraftState.confirmed (DraftEvent.update_slot r) =
        Except.error DraftError.terminalState := by
  refine ⟨?_, ?_, ?_, rfl⟩
  · intro hs; subst hs; cases e <;> simp [draftStep] at h
  · intro hs; subst hs; cases e <;> simp [draftStep] at h
  · intro h2
    cases s with
    | ready => rfl
    | confirmed => cases e <;> simp [draftStep] at h
    | abandoned => cases e <;> simp [draftStep] at h
    | collecting =>
      cases e with
      | update_slot b => cases b <;> simp_all [draftStep]
      | confirm b => simp [draftStep] at h
      | abandon => simp_all [draftStep]

/-- Witness for C2 at the transition ready --confirm(ok)--> confirmed. -/
theorem draft_terminal_witness :
    DraftState.ready ≠ DraftState.confirmed ∧
      DraftState.ready ≠ DraftState.abandoned ∧
      (DraftState.confirmed = DraftState.confirmed →
        DraftState.ready = DraftState.ready) ∧
      draftStep DraftState.confirmed (DraftEvent.update_slot true) =
        Except.error DraftError.terminalState :=
  draft_terminal DraftState.ready DraftState.confirmed
    (DraftEvent.confirm true) true rfl

/-- Claim C3: booking a reachable slot whose capacity is exhausted returns
SlotFullError and leaves the slot state unchanged — no appointment is
created and the ledger is untouched. -/
theorem book_full_returns_slotFull (capacity : Nat) (s : SlotState)
    (i : Nat) (h : SlotReachable capacity s)
    (hfull : capacity ≤ countActive s.appts) :
    Scheduler.book capacity s i = (BookResult.slotFull, s) := by
  obtain ⟨h1, h2⟩ := slotReachable_invariant h
  unfold Scheduler.book
  rw [if_neg (by omega)]

/-- A full slot state for a capacity-1 key. -/
def slotFullDemo : SlotState := ⟨[(1, ApptStatus.pending)], 1⟩

/-- Witness for C3: a second booking against the full capacity-1 slot. -/
theorem book_full_returns_slotFull_witness :
    Scheduler.book 1 slotFullDemo 2 = (BookResult.slotFull, slotFullDemo) :=
  book_full_returns_slotFull 1 slotFullDemo 2
    (@SlotReachable.book 1 ⟨[], 0⟩ slotFullDemo 1 SlotReachable.empty
      (by decide))
    (by decide)

/-- Claim C4: cancelling the same appointment twice is idempotent — the
state after the second cancel equals the state after the first (so the
ledger is not released twice), and when the first cancel succeeded the
second reports an already-cancelled condition. -/
theorem scheduler_cancel_idempotent (s : SlotState) (i : Nat) :
    (Scheduler.cancel (Scheduler.cancel s i).2 i).2 =
        (Scheduler.cancel s i).2 ∧
      ((Scheduler.cancel s i).1 = CancelResult.cancelled →
        (Scheduler.cancel (Scheduler.cancel s i).2 i).1 =
          CancelResult.alreadyCancelled) := by
  cases hfind : findStatus s.appts i with
  | none =>
    have h1 := cancel_eq_notFound hfind
    simp [h1]
  | some st =>
    by_cases hcan : (st == ApptStatus.cancelled) = true
    · have hst : st = ApptStatus.cancelled := beq_iff_eq.mp hcan
      subst hst
      have h1 := cancel_eq_already hfind
      simp [h1]
    · by_cases hact : isActive st = true
      · have h1 := cancel_eq_active hfind hact
        have hss : findStatus (setStatus s.appts i ApptStatus.cancelled) i =
            some ApptStatus.cancelled :=
          findStatus_setStatus ApptStatus.cancelled (by rw [hfind]; rfl)
        have h2 := @cancel_eq_already
          ⟨setStatus s.appts i ApptStatus.cancelled, s.ledger - 1⟩ i hss
        simp [h1, h2]
      · have hcf : (st == ApptStatus.cancelled) = false := by
          simpa using hcan
        have haf : isActive st = false := by simpa using hact
        have h1 := cancel_eq_inert hfind hcf haf
        simp [h1]

/-- A slot state holding one pending appointment to cancel twice. -/
def cancelDemo : SlotState := ⟨[(1, ApptStatus.pending)], 1⟩

/-- Witness for C4 at the concrete state cancelDemo. -/
theorem scheduler_cancel_idempotent_witness :
    (Scheduler.cancel (Scheduler.cancel cancelDemo 1).2 1).2 =
        (Scheduler.cancel cancelDemo 1).2 ∧
      (Scheduler.cancel (Scheduler.cancel cancelDemo 1).2 1).1 =
        CancelResult.alreadyCancelled :=
  ⟨(scheduler_cancel_idempotent cancelDemo 1).1,
   (scheduler_cancel_idempotent cancelDemo 1).2 (by decide)⟩

/-- Claim C5: the Availability Index fails with NotFoundError whenever
doctor_id names no existing doctor, and with InvalidRangeError whenever
the doctor exists and the range start is after the range end. -/
theorem availability_index_errors (doctors : List Doctor)
    (rules : List DoctorAvailability)
    (doctor_id range_start range_end : Nat) :
    (doctors.find? (fun d => d.id == doctor_id) = none →
      availability doctors rules doctor_id range_start range_end =
        Except.error AvailError.NotFoundError) ∧
    ((doctors.find? (fun d => d.id == doctor_id)).isSome = true →
      range_end < range_start →
      availability doctors rules doctor_id range_start range_end =
        Except.error AvailError.InvalidRangeError) := by
  constructor
  · intro hnone
    unfold availability
    rw [hnone]
  · intro hsome hr
    unfold availability
    cases hf : doctors.find? (fun d => d.id == doctor_id) with
    | none => rw [hf] at hsome; simp at hsome
    | some d => simp [hr]

/-- The one-doctor directory used by the C5 witness. -/
def doctorsDemo : List Doctor := [⟨1, DoctorStatus.active⟩]

/-- Witness for C5: an unknown doctor id and an inverted range. -/
theorem availability_index_errors_witness :
    availability doctorsDemo [] 2 0 1 =
        Except.error AvailError.NotFoundError ∧
      availability doctorsDemo [] 1 5 3 =
        Except.error AvailError.InvalidRangeError :=
  ⟨(availability_index_errors doctorsDemo [] 2 0 1).1 (by decide),
   (availability_index_errors doctorsDemo [] 1 5 3).2 (by decide)
     (by decide)⟩

end ThinkThread
